import Mathlib

/-!
Verification of the httpteleport wire-protocol engine against its source.

Each Go function relevant to the checked claims is shallowly embedded as an
executable Lean definition.  Bytes are `Nat` values below 256; machine
integers are `Nat`/`Int` with explicit `% 2^w` where overflow matters;
fallible operations return `Except`/`Option`; stateful code is explicit
state passing over `ClientState`/`ServerState`.
-/

namespace Httpteleport

/-- Embeds the Go constant `protocolVersion1 = 0` from common.go. -/
def protocolVersion1 : Nat := 0

/-- Compression codes are single bytes on the wire (`type CompressType byte`). -/
abbrev CompressType := Nat

/-- Embeds `CompressNone = CompressType(1)` from common.go. -/
def CompressNone : CompressType := 1

/-- Embeds `CompressFlate = CompressType(0)` from common.go. -/
def CompressFlate : CompressType := 0

/-- Embeds `CompressSnappy = CompressType(2)` from common.go. -/
def CompressSnappy : CompressType := 2

/-- Embeds `var sniffHeader = []byte("httpteleport")` from common.go:
the ASCII bytes of the literal string. -/
def sniffHeader : List Nat := "httpteleport".toList.map Char.toNat

/-- Embeds `handshakeWrite` (common.go): writes the sniff header, then a
3-byte connection header `[version, compressType, tlsFlag]` where the TLS
flag byte is 1 when TLS is intended and 0 otherwise (`buf` starts zeroed
and `buf[2]` is set to 1 only in the `isTLS` branch).  The result is the
full byte sequence written to the connection. -/
def handshakeWrite (compressType : Nat) (isTLS : Bool) : List Nat :=
  sniffHeader ++ [protocolVersion1, compressType % 256, if isTLS then 1 else 0]

/-- Embeds `handshakeRead` (common.go): reads the sniff header and fails on
mismatch, then reads the 3-byte connection header, failing when the version
byte differs from `protocolVersion1`; `io.ReadFull` failure on a too-short
stream is an error.  On success it returns the peer compression byte, the
TLS flag (`buf[2] != 0`) and the unread remainder of the stream. -/
def handshakeRead (s : List Nat) : Except String (CompressType × Bool × List Nat) :=
  if s.length < 12 then
    .error "cannot read sniffHeader"
  else if s.take 12 ≠ sniffHeader then
    .error "invalid sniffHeader read"
  else
    match s.drop 12 with
    | v :: ct :: tlsFlag :: rest =>
      if v ≠ protocolVersion1 then
        .error "server returned unknown protocol version"
      else
        .ok (ct, tlsFlag != 0, rest)
    | _ => .error "cannot read connection header"

/-- Embeds `appendUint32` (client.go): appends the four bytes of the 32-bit
value `n` least-significant first, via `byte(n), byte(n>>8), byte(n>>16),
byte(n>>24)`. -/
def appendUint32 (b : List Nat) (n : Nat) : List Nat :=
  b ++ [n % 256, (n >>> 8) % 256, (n >>> 16) % 256, (n >>> 24) % 256]

/-- Embeds `bytes2Uint32` (client.go): rebuilds the 32-bit value from the
4-byte array `b` as `uint32(b[3])<<24 | uint32(b[2])<<16 | uint32(b[1])<<8 |
uint32(b[0])`. -/
def bytes2Uint32 (b0 b1 b2 b3 : Nat) : Nat :=
  (b3 <<< 24) ||| (b2 <<< 16) ||| (b1 <<< 8) ||| b0

/-- Errors surfaced to client callers, modelling `ErrTimeout`,
`ErrPendingRequestsOverflow`, `errNoBodyStream`, the writer's
`request ID overflow` error and dial/connection errors from client.go. -/
inductive ClientError where
  | timeout
  | pendingRequestsOverflow
  | noBodyStream
  | requestIDOverflow (id : Nat)
  | connError (msg : String)
deriving DecidableEq, Repr

/-- Models `clientWorkItem` (client.go).  Only the deadline influences the
control flow under verification; the request/response payloads and the
one-shot done channel are represented by the surrounding bookkeeping. -/
structure WorkItem where
  deadline : Int
deriving DecidableEq, Repr

/-- The mutable parts of `Client` (client.go): the configured
`MaxPendingRequests`, the cached `lastErr`, the bounded `pendingRequests`
channel (as a FIFO list), the `pendingResponses` correlation table (as an
association list), the writer's `reqID` counter and the atomic
`pendingRequestsCount`. -/
structure ClientState where
  MaxPendingRequests : Int
  lastErr : Option ClientError
  pendingRequests : List WorkItem
  pendingResponses : List (Nat × WorkItem)
  reqID : Nat
  pendingRequestsCount : Nat
deriving DecidableEq, Repr

/-- Embeds `DefaultMaxPendingRequests = 1000` (common.go). -/
def DefaultMaxPendingRequests : Nat := 1000

/-- Embeds `Client.maxPendingRequests` (client.go): the configured value, or
the default when it is non-positive. -/
def ClientState.maxPendingRequests (c : ClientState) : Nat :=
  if c.MaxPendingRequests ≤ 0 then DefaultMaxPendingRequests else c.MaxPendingRequests.toNat

/-- Embeds `Client.getError` (client.go): returns the cached last
connection/dial error when one is set, and the specific error otherwise. -/
def getError (lastErr : Option ClientError) (err : ClientError) : ClientError :=
  match lastErr with
  | some e => e
  | none => err

/-- Embeds `Client.setLastError` (client.go). -/
def ClientState.setLastError (c : ClientState) (e : Option ClientError) : ClientState :=
  {c with lastErr := e}

/-- A zero-valued `Client` with the given `MaxPendingRequests` configuration,
as produced by `Client.init` (client.go): empty queue and correlation table,
`reqID` and the pending counter at 0, no cached error. -/
def freshClient (maxPendingRequests : Int) : ClientState :=
  { MaxPendingRequests := maxPendingRequests, lastErr := none, pendingRequests := [],
    pendingResponses := [], reqID := 0, pendingRequestsCount := 0 }

/-- Embeds `Client.enqueueWorkItem` (client.go) under a sequential semantics
of the channel selects: a non-blocking send succeeds when the queue is below
capacity; otherwise the oldest item is received and completed with
`getError(ErrPendingRequestsOverflow)` and the send is retried once; a still
full queue (or an empty zero-capacity channel) yields
`ErrPendingRequestsOverflow`.  Returns the enqueue outcome and the list of
displaced items with the errors sent on their done channels. -/
def ClientState.enqueueWorkItem (c : ClientState) (wi : WorkItem) :
    Except ClientError (List WorkItem) × List (WorkItem × ClientError) :=
  if c.pendingRequests.length < c.maxPendingRequests then
    (.ok (c.pendingRequests ++ [wi]), [])
  else
    match c.pendingRequests with
    | [] => (.error .pendingRequestsOverflow, [])
    | wiOld :: rest =>
      if rest.length < c.maxPendingRequests then
        (.ok (rest ++ [wi]), [(wiOld, getError c.lastErr .pendingRequestsOverflow)])
      else
        (.error .pendingRequestsOverflow, [(wiOld, getError c.lastErr .pendingRequestsOverflow)])

/-- Outcome of a `DoDeadline` call: a synchronous error return, or admission
of the request (the caller then blocks on the done channel). -/
inductive DoOutcome where
  | errResult (e : ClientError)
  | enqueued
deriving DecidableEq, Repr

/-- Embeds `Client.DoDeadline` (client.go) up to the point where the caller
blocks: the streaming-body check, the pending-counter admission
(`n := count+1; n >= maxPendingRequests` rejects and rolls the counter
back), and the enqueue with its displace-oldest fallback.  Returns the
outcome, the updated client state, and the displaced completions. -/
def ClientState.doDeadline (c : ClientState) (reqIsBodyStream : Bool) (wi : WorkItem) :
    DoOutcome × ClientState × List (WorkItem × ClientError) :=
  if reqIsBodyStream then
    (.errResult .noBodyStream, c, [])
  else
    let n := c.pendingRequestsCount + 1
    let c1 : ClientState := {c with pendingRequestsCount := n}
    if n ≥ c.maxPendingRequests then
      (.errResult (getError c.lastErr .pendingRequestsOverflow),
       {c1 with pendingRequestsCount := c1.pendingRequestsCount - 1}, [])
    else
      match c1.enqueueWorkItem wi with
      | (.ok q, displaced) =>
        (.enqueued, {c1 with pendingRequests := q}, displaced)
      | (.error e, displaced) =>
        (.errResult (getError c.lastErr e),
         {c1 with pendingRequestsCount := c1.pendingRequestsCount - 1}, displaced)

/-- Embeds `Client.DoTimeout` (client.go): computes
`deadline := time.Now().Add(timeout)` and delegates to `DoDeadline`. -/
def ClientState.doTimeout (c : ClientState) (reqIsBodyStream : Bool) (now timeout : Int) :
    DoOutcome × ClientState × List (WorkItem × ClientError) :=
  c.doDeadline reqIsBodyStream ⟨now + timeout⟩

/-- Result of one iteration of the `Client.connWriter` loop body. -/
inductive WriteStepResult where
  | sent (id : Nat)
  | expired
  | idCollision (id : Nat)
deriving DecidableEq, Repr

/-- 2^32, the wrap modulus of the `uint32` request-ID counter. -/
def uint32Mod : Nat := 4294967296

/-- Embeds one iteration of `Client.connWriter` (client.go) for a dequeued
work item `wi` at time `now`: an expired item is completed with
`getError(ErrTimeout)` and skipped; otherwise the current `reqID` is
assigned and the counter incremented (mod 2^32); if the correlation table
already holds the assigned ID the writer returns a request-ID-overflow
error (terminating the connection) without overwriting the entry, else the
item is recorded under that ID.  Returns the step result, the new state and
the error (if any) sent on the item's done channel. -/
def ClientState.connWriterStep (c : ClientState) (now : Int) (wi : WorkItem) :
    WriteStepResult × ClientState × Option ClientError :=
  if wi.deadline < now then
    (.expired, c, some (getError c.lastErr .timeout))
  else
    let reqID := c.reqID
    let c1 : ClientState := {c with reqID := (reqID + 1) % uint32Mod}
    if (c1.pendingResponses.lookup reqID).isSome then
      (.idCollision reqID, c1, some (getError c.lastErr (.requestIDOverflow reqID)))
    else
      (.sent reqID, {c1 with pendingResponses := c1.pendingResponses ++ [(reqID, wi)]}, none)

/-- Runs `Client.connWriter` over a list of dequeued work items; an ID
collision terminates the loop (the connection is torn down), any other step
continues. -/
def connWriterRun (now : Int) : ClientState → List WorkItem → ClientState × List WriteStepResult
  | c, [] => (c, [])
  | c, wi :: rest =>
    match c.connWriterStep now wi with
    | (.idCollision id, c1, _) => (c1, [.idCollision id])
    | (r, c1, _) =>
      let p := connWriterRun now c1 rest
      (p.1, r :: p.2)

/-- Embeds the loop body of `Client.unblockStaleRequests` (client.go) with an
explicit fuel (`n := len(c.pendingRequests)` iterations): each round pops the
front of the queue (stopping when it is empty), completes it with
`getError(ErrTimeout)` when expired, and otherwise re-enqueues it through
`enqueueWorkItem`, completing it with `getError(err)` when that fails.
Returns the final state, all completions sent, and the found flag. -/
def unblockStalePass (now : Int) : Nat → ClientState → ClientState × List (WorkItem × ClientError) × Bool
  | 0, c => (c, [], false)
  | i + 1, c =>
    match c.pendingRequests with
    | [] => (c, [], false)
    | wi :: rest =>
      let c0 : ClientState := {c with pendingRequests := rest}
      if wi.deadline < now then
        let p := unblockStalePass now i c0
        (p.1, (wi, getError c.lastErr .timeout) :: p.2.1, true)
      else
        match c0.enqueueWorkItem wi with
        | (.ok q, displaced) =>
          let p := unblockStalePass now i {c0 with pendingRequests := q}
          (p.1, displaced ++ p.2.1, p.2.2)
        | (.error e, displaced) =>
          let p := unblockStalePass now i c0
          (p.1, displaced ++ [(wi, getError c.lastErr e)] ++ p.2.1, p.2.2)

/-- Embeds `Client.unblockStaleRequests` (client.go). -/
def ClientState.unblockStaleRequests (c : ClientState) (now : Int) :
    ClientState × List (WorkItem × ClientError) × Bool :=
  unblockStalePass now c.pendingRequests.length c

/-- Embeds `Client.unblockStaleResponses` (client.go): every correlation
table entry whose deadline has passed is removed and completed with
`getError(ErrTimeout)`. -/
def ClientState.unblockStaleResponses (c : ClientState) (now : Int) :
    ClientState × List (WorkItem × ClientError) × Bool :=
  let expired := c.pendingResponses.filter (fun p => decide (p.2.deadline < now))
  let kept := c.pendingResponses.filter (fun p => !decide (p.2.deadline < now))
  ({c with pendingResponses := kept},
   expired.map (fun p => (p.2, getError c.lastErr .timeout)),
   !expired.isEmpty)

theorem sniffHeader_eq : sniffHeader = [104, 116, 116, 112, 116, 101, 108, 101, 112, 111, 114, 116] := by
  decide

theorem sniffHeader_length : sniffHeader.length = 12 := by
  decide

theorem bytes2Uint32_eq_sum (b0 b1 b2 b3 : Nat)
    (h0 : b0 < 256) (h1 : b1 < 256) (h2 : b2 < 256) :
    bytes2Uint32 b0 b1 b2 b3 = b0 + 256 * b1 + 65536 * b2 + 16777216 * b3 := by
  unfold bytes2Uint32
  rw [Nat.shiftLeft_eq, Nat.shiftLeft_eq, Nat.shiftLeft_eq]
  rw [Nat.mul_comm b3, Nat.mul_comm b2, Nat.mul_comm b1]
  rw [← Nat.mul_add_lt_is_or (b := 2 ^ 16 * b2) (by norm_num; omega) b3]
  have h24 : (2:Nat) ^ 24 * b3 + 2 ^ 16 * b2 = 2 ^ 16 * (2 ^ 8 * b3 + b2) := by ring
  rw [h24, ← Nat.mul_add_lt_is_or (b := 2 ^ 8 * b1) (by norm_num; omega) _]
  have h16 : (2:Nat) ^ 16 * (2 ^ 8 * b3 + b2) + 2 ^ 8 * b1
      = 2 ^ 8 * (2 ^ 8 * (2 ^ 8 * b3 + b2) + b1) := by ring
  rw [h16, ← Nat.mul_add_lt_is_or (b := b0) h0 _]
  ring

/-- Claim C1: during the handshake each peer writes exactly the 12-byte ASCII
sniff tag "httpteleport" followed by three bytes — protocol version 0, its
own compression code, and a TLS flag byte that is 1 when TLS is intended and
0 otherwise — and the reading side fails the handshake whenever the received
sniff tag differs from "httpteleport" or the version byte differs from 0. -/
theorem handshake_wire_format :
    (∀ ct tls, handshakeWrite ct tls
      = ("httpteleport".toList.map Char.toNat)
        ++ [0, ct % 256, if tls then 1 else 0]) ∧
    (∀ ct tls rest, ct < 256 →
      handshakeRead (handshakeWrite ct tls ++ rest) = .ok (ct, tls, rest)) ∧
    (∀ s : List Nat,
      s.take 12 ≠ sniffHeader ∨ (s.drop 12).head? ≠ some protocolVersion1 →
      ∀ r, handshakeRead s ≠ .ok r) := by
  refine ⟨fun ct tls => rfl, ?_, ?_⟩
  · intro ct tls rest hct
    have hw : handshakeWrite ct tls ++ rest
        = sniffHeader ++ ([protocolVersion1, ct % 256, if tls then 1 else 0] ++ rest) := by
      simp [handshakeWrite]
    rw [handshakeRead, hw, List.take_left' sniffHeader_length,
      List.drop_left' sniffHeader_length]
    simp [protocolVersion1, Nat.mod_eq_of_lt hct, sniffHeader_length]
    cases tls <;> simp
  · intro s hbad r
    by_cases h12 : s.length < 12
    · simp [handshakeRead, h12]
    · by_cases hsn : s.take 12 = sniffHeader
      · have hv : (s.drop 12).head? ≠ some protocolVersion1 := by
          rcases hbad with h | h
          · exact absurd hsn h
          · exact h
        rcases hd : s.drop 12 with _ | ⟨v, tl⟩
        · simp [handshakeRead, h12, hsn, hd]
        · rcases tl with _ | ⟨ct, tl2⟩
          · simp [handshakeRead, h12, hsn, hd]
          · rcases tl2 with _ | ⟨tlsFlag, rest⟩
            · simp [handshakeRead, h12, hsn, hd]
            · have hv0 : v ≠ protocolVersion1 := by
                intro hEq
                apply hv
                rw [hd, hEq]
                rfl
              simp [handshakeRead, h12, hsn, hd, hv0]
      · simp [handshakeRead, h12, hsn]

theorem handshake_wire_format_witness :
    (2 : Nat) < 256 ∧
    handshakeRead (handshakeWrite 2 true ++ [9]) = .ok (2, true, [9]) ∧
    (∀ r, handshakeRead [0, 1, 2] ≠ .ok r) :=
  ⟨by decide,
   handshake_wire_format.2.1 2 true [9] (by decide),
   handshake_wire_format.2.2 [0, 1, 2] (Or.inl (by decide))⟩

/-- Claim C2: the on-wire compression codes are fixed as flate=0, none=1,
snappy=2, and the handshake transmits exactly the sender's compression
constant as the compression byte (byte index 13 of the written handshake,
right after the 12-byte sniff tag and the version byte). -/
theorem compress_codes_on_wire :
    CompressFlate = 0 ∧ CompressNone = 1 ∧ CompressSnappy = 2 ∧
    (∀ ct tls, ct < 256 → (handshakeWrite ct tls).get? 13 = some ct) ∧
    (∀ tls, (handshakeWrite CompressFlate tls).get? 13 = some CompressFlate
      ∧ (handshakeWrite CompressNone tls).get? 13 = some CompressNone
      ∧ (handshakeWrite CompressSnappy tls).get? 13 = some CompressSnappy) := by
  refine ⟨rfl, rfl, rfl, ?_, ?_⟩
  · intro ct tls hct
    simp [handshakeWrite, sniffHeader_eq, Nat.mod_eq_of_lt hct]
  · intro tls
    refine ⟨?_, ?_, ?_⟩ <;> cases tls <;> decide

theorem compress_codes_on_wire_witness :
    (77 : Nat) < 256 ∧ (handshakeWrite 77 false).get? 13 = some 77 :=
  ⟨by decide, compress_codes_on_wire.2.2.2.1 77 false (by decide)⟩

/-- Claim C3: for every 32-bit value `n`, `appendUint32` appends exactly the
four bytes of `n` in little-endian order, and `bytes2Uint32` applied to those
four bytes returns `n`; conversely `appendUint32` applied to `bytes2Uint32`
of any four bytes reproduces them, so the correlation-ID decoder is a
two-sided inverse of the encoder. -/
theorem correlation_id_codec_inverse :
    (∀ n, n < 4294967296 →
      appendUint32 [] n = [n % 256, n / 256 % 256, n / 65536 % 256, n / 16777216 % 256] ∧
      bytes2Uint32 (n % 256) (n / 256 % 256) (n / 65536 % 256) (n / 16777216 % 256) = n) ∧
    (∀ b0 b1 b2 b3, b0 < 256 → b1 < 256 → b2 < 256 → b3 < 256 →
      appendUint32 [] (bytes2Uint32 b0 b1 b2 b3) = [b0, b1, b2, b3]) ∧
    (∀ b n, appendUint32 b n = b ++ appendUint32 [] n) := by
  refine ⟨?_, ?_, fun b n => rfl⟩
  · intro n hn
    constructor
    · simp [appendUint32, Nat.shiftRight_eq_div_pow]
    · rw [bytes2Uint32_eq_sum _ _ _ _ (Nat.mod_lt _ (by norm_num))
        (Nat.mod_lt _ (by norm_num)) (Nat.mod_lt _ (by norm_num))]
      omega
  · intro b0 b1 b2 b3 h0 h1 h2 h3
    rw [bytes2Uint32_eq_sum _ _ _ _ h0 h1 h2]
    simp [appendUint32, Nat.shiftRight_eq_div_pow]
    refine ⟨?_, ?_, ?_, ?_⟩ <;> omega

theorem correlation_id_codec_inverse_witness :
    (305419896 : Nat) < 4294967296 ∧
    appendUint32 [] 305419896 = [120, 86, 52, 18] ∧
    bytes2Uint32 120 86 52 18 = 305419896 ∧
    appendUint32 [] (bytes2Uint32 120 86 52 18) = [120, 86, 52, 18] :=
  have h := correlation_id_codec_inverse.1 305419896 (by decide)
  ⟨by decide, h.1, h.2,
   correlation_id_codec_inverse.2.1 120 86 52 18
     (by decide) (by decide) (by decide) (by decide)⟩

deriving instance DecidableEq for Except

theorem enqueueWorkItem_count_irrel (c : ClientState) (n : Nat) (wi : WorkItem) :
    ({c with pendingRequestsCount := n} : ClientState).enqueueWorkItem wi
      = c.enqueueWorkItem wi := rfl

theorem enqueueWorkItem_error_eq (c : ClientState) (wi : WorkItem) (e : ClientError)
    (h : (c.enqueueWorkItem wi).1 = .error e) : e = .pendingRequestsOverflow := by
  unfold ClientState.enqueueWorkItem at h
  split at h
  · simp at h
  · split at h
    · simp at h
      exact h.symm
    · split at h
      · simp at h
      · simp at h
        exact h.symm

theorem enqueueWorkItem_displaced (c : ClientState) (wi : WorkItem) :
    ∀ p ∈ (c.enqueueWorkItem wi).2, p.2 = getError c.lastErr .pendingRequestsOverflow := by
  intro p hp
  unfold ClientState.enqueueWorkItem at hp
  split at hp
  · simp at hp
  · split at hp
    · simp at hp
    · split at hp <;> simp at hp <;> rw [hp]

theorem enqueueWorkItem_error_iff (c : ClientState) (wi : WorkItem) :
    (c.enqueueWorkItem wi).1 = .error .pendingRequestsOverflow ↔
      (c.maxPendingRequests ≤ c.pendingRequests.length ∧
        (c.pendingRequests = []
          ∨ c.maxPendingRequests ≤ c.pendingRequests.length - 1)) := by
  simp only [ClientState.enqueueWorkItem]
  by_cases hlen : c.pendingRequests.length < c.maxPendingRequests
  · rw [if_pos hlen]
    constructor
    · intro h
      simp at h
    · rintro ⟨h1, _⟩
      omega
  · rw [if_neg hlen]
    rcases hq : c.pendingRequests with _ | ⟨wiOld, rest⟩
    · simp [hq] at hlen ⊢
      omega
    · by_cases hrest : rest.length < c.maxPendingRequests
      · simp [hrest] at hlen ⊢
      · simp [hrest] at hlen ⊢
        omega

/-- Claim C4: if the request passed to DoDeadline declares a streaming body,
the call returns the fixed no-body-stream sentinel immediately and
synchronously — the client state (pending counter, queue, correlation table)
is untouched and no completion is produced, hence nothing reaches the
wire.  DoTimeout delegates to DoDeadline and behaves identically. -/
theorem doDeadline_body_stream_rejected (c : ClientState) (wi : WorkItem)
    (now timeout : Int) :
    c.doDeadline true wi = (.errResult .noBodyStream, c, [])
    ∧ c.doTimeout true now timeout = (.errResult .noBodyStream, c, []) := ⟨rfl, rfl⟩

/-- The state used to exercise claim C5 as written: MaxPendingRequests = 2,
one outstanding request, empty queue. -/
def overflowProbeState : ClientState :=
  { MaxPendingRequests := 2, lastErr := none, pendingRequests := [],
    pendingResponses := [], reqID := 0, pendingRequestsCount := 1 }

/-- Claim C5 fails as stated: with a cap of 2, a single outstanding request
(strictly below the cap) and an empty queue (the non-blocking enqueue would
succeed), DoDeadline nevertheless returns the pending-overflow error,
because the code rejects as soon as the incremented counter reaches the cap
(`n >= c.maxPendingRequests()`), i.e. when MaxPendingRequests − 1 requests
are already outstanding. -/
theorem doDeadline_overflow_off_by_one :
    (overflowProbeState.doDeadline false ⟨0⟩).1
      = .errResult .pendingRequestsOverflow
    ∧ overflowProbeState.pendingRequestsCount < overflowProbeState.maxPendingRequests
    ∧ (overflowProbeState.enqueueWorkItem ⟨0⟩).1 = .ok [⟨0⟩] := by decide

/-- Claim C5 (amended): the admission test rejects when the incremented
counter (which includes the new request) reaches the MaxPendingRequests cap,
i.e. when at least MaxPendingRequests − 1 requests were already outstanding.
With no cached connection error, DoDeadline fails with
ErrPendingRequestsOverflow exactly when that counter test fails or the
bounded queue rejects both the non-blocking enqueue and the single
displace-oldest retry (which completes the displaced oldest item with the
pending-overflow error); otherwise the request is enqueued. -/
theorem doDeadline_overflow_policy (c : ClientState) (wi : WorkItem)
    (hle : c.lastErr = none) :
    ((c.doDeadline false wi).1 = .errResult .pendingRequestsOverflow ↔
      (c.pendingRequestsCount + 1 ≥ c.maxPendingRequests
        ∨ (c.enqueueWorkItem wi).1 = .error .pendingRequestsOverflow)) ∧
    (∀ q ds, c.pendingRequestsCount + 1 < c.maxPendingRequests →
      c.enqueueWorkItem wi = (.ok q, ds) →
      c.doDeadline false wi
        = (.enqueued,
           {c with pendingRequestsCount := c.pendingRequestsCount + 1,
                   pendingRequests := q}, ds)) ∧
    ((c.enqueueWorkItem wi).1 = .error .pendingRequestsOverflow ↔
      (c.maxPendingRequests ≤ c.pendingRequests.length ∧
        (c.pendingRequests = []
          ∨ c.maxPendingRequests ≤ c.pendingRequests.length - 1))) ∧
    (∀ p ∈ (c.enqueueWorkItem wi).2,
      p.2 = .pendingRequestsOverflow ∧ some p.1 = c.pendingRequests.head?) := by
  refine ⟨?_, ?_, enqueueWorkItem_error_iff c wi, ?_⟩
  · simp only [ClientState.doDeadline, Bool.false_eq_true, if_false]
    by_cases hcap : c.pendingRequestsCount + 1 ≥ c.maxPendingRequests
    · simp [hcap, hle, getError]
    · rw [if_neg hcap]
      rcases henq : c.enqueueWorkItem wi with ⟨res, ds⟩
      rcases res with e | q
      · have he : e = .pendingRequestsOverflow :=
          enqueueWorkItem_error_eq c wi e (by rw [henq])
        rw [enqueueWorkItem_count_irrel, henq]
        simp [hle, getError, he, hcap]
      · rw [enqueueWorkItem_count_irrel, henq]
        simp [hcap, henq]
  · intro q ds hcap henq
    simp only [ClientState.doDeadline, Bool.false_eq_true, if_false]
    rw [if_neg (by omega), enqueueWorkItem_count_irrel, henq]
  · intro p hp
    have h1 := enqueueWorkItem_displaced c wi p hp
    rw [hle] at h1
    refine ⟨h1, ?_⟩
    unfold ClientState.enqueueWorkItem at hp
    split at hp
    · simp at hp
    · split at hp
      · simp at hp
      · rename_i wiOld rest hcons
        split at hp <;> simp at hp <;> rw [hp, hcons] <;> rfl

theorem doDeadline_overflow_policy_witness :
    (freshClient 3).lastErr = none ∧
    ((freshClient 3).doDeadline false ⟨0⟩).1 = .enqueued ∧
    (overflowProbeState.doDeadline false ⟨0⟩).1
      = .errResult .pendingRequestsOverflow := by
  have h3 := doDeadline_overflow_policy (freshClient 3) ⟨0⟩ rfl
  have hp := doDeadline_overflow_policy overflowProbeState ⟨0⟩ rfl
  refine ⟨rfl, ?_, ?_⟩
  · have := h3.2.1 [⟨0⟩] [] (by decide) (by decide)
    rw [this]
  · exact hp.1.mpr (Or.inl (by decide))

/-- Two consecutive connections of the same client: the first sends one
request, the connection fails, the worker caches the connection error, and a
fresh `connWriter` on the second connection receives one request. -/
def reconnectProbe : ClientState × List WriteStepResult :=
  let c1 := (connWriterRun 0 (freshClient 0) [⟨100⟩]).1
  connWriterRun 0 (c1.setLastError (some (.connError "error on connection"))) [⟨100⟩]

/-- Claim C7 fails as stated: the correlation-ID counter is a per-client
field, not a per-connection one.  After a first connection sends one request
(consuming ID 0) and the client reconnects, the first request on the second
connection is assigned ID 1, whereas a per-connection counter starting at 0
would assign ID 0. -/
theorem connWriter_reqID_not_per_connection :
    reconnectProbe.2 = [.sent 1]
    ∧ WriteStepResult.sent 1 ≠ WriteStepResult.sent 0 := by decide

/-- Claim C7 (amended): the client writer assigns correlation IDs from a
per-client counter that starts at 0 when the client is created and
increments by 1 (mod 2^32) per sent request, persisting across
reconnections; before recording a newly assigned ID in the correlation
table the writer checks for an existing entry under the same ID and, when
one is present, terminates the connection with a request-ID-overflow error
instead of overwriting the live waiter. -/
theorem connWriter_reqID_assignment (c : ClientState) (now : Int) (wi : WorkItem)
    (hlive : ¬ wi.deadline < now) :
    (freshClient c.MaxPendingRequests).reqID = 0 ∧
    (∀ e, (c.setLastError e).reqID = c.reqID
      ∧ (c.setLastError e).pendingResponses = c.pendingResponses) ∧
    ((c.pendingResponses.lookup c.reqID).isSome →
      c.connWriterStep now wi
        = (.idCollision c.reqID,
           {c with reqID := (c.reqID + 1) % uint32Mod},
           some (getError c.lastErr (.requestIDOverflow c.reqID)))
      ∧ ∀ rest, connWriterRun now c (wi :: rest)
          = ({c with reqID := (c.reqID + 1) % uint32Mod},
             [.idCollision c.reqID])) ∧
    ((c.pendingResponses.lookup c.reqID).isNone →
      c.connWriterStep now wi
        = (.sent c.reqID,
           {c with reqID := (c.reqID + 1) % uint32Mod,
                   pendingResponses := c.pendingResponses ++ [(c.reqID, wi)]},
           none)) := by
  refine ⟨rfl, fun e => ⟨rfl, rfl⟩, ?_, ?_⟩
  · intro hcoll
    have hstep : c.connWriterStep now wi
        = (.idCollision c.reqID,
           {c with reqID := (c.reqID + 1) % uint32Mod},
           some (getError c.lastErr (.requestIDOverflow c.reqID))) := by
      simp [ClientState.connWriterStep, hlive, hcoll]
    refine ⟨hstep, ?_⟩
    intro rest
    simp only [connWriterRun, hstep]
  · intro hfree
    have hn : ¬ (c.pendingResponses.lookup c.reqID).isSome = true := by
      simp [Option.isNone_iff_eq_none.mp hfree]
    simp [ClientState.connWriterStep, hlive, hn]

theorem connWriter_reqID_assignment_witness :
    ¬ (100 : Int) < 0 ∧
    ((freshClient 0).connWriterStep 0 ⟨100⟩
      = (.sent 0,
         {freshClient 0 with reqID := 1, pendingResponses := [(0, ⟨100⟩)]},
         none)) :=
  ⟨by decide,
   by
    have h := (connWriter_reqID_assignment (freshClient 0) 0 ⟨100⟩ (by decide)).2.2.2
      (by decide)
    simpa using h⟩

theorem unblockStalePass_errors (now : Int) :
    ∀ (fuel : Nat) (c : ClientState), ∀ p ∈ (unblockStalePass now fuel c).2.1,
      p.2 = getError c.lastErr .timeout
        ∨ p.2 = getError c.lastErr .pendingRequestsOverflow := by
  intro fuel
  induction fuel with
  | zero =>
    intro c p hp
    simp [unblockStalePass] at hp
  | succ i ih =>
    intro c p hp
    rw [unblockStalePass] at hp
    rcases hq : c.pendingRequests with _ | ⟨wi, rest⟩
    · rw [hq] at hp
      simp at hp
    · rw [hq] at hp
      dsimp only at hp
      by_cases hexp : wi.deadline < now
      · rw [if_pos hexp] at hp
        simp only [List.mem_cons] at hp
        rcases hp with hp | hp
        · left
          rw [hp]
        · exact ih {c with pendingRequests := rest} p hp
      · rw [if_neg hexp] at hp
        rcases henq : ({c with pendingRequests := rest} : ClientState).enqueueWorkItem wi
          with ⟨res, ds⟩
        have hds : ∀ q ∈ ds, q.2 = getError c.lastErr .pendingRequestsOverflow := by
          intro q hqmem
          have := enqueueWorkItem_displaced {c with pendingRequests := rest} wi q
            (by rw [henq]; exact hqmem)
          exact this
        rcases res with e | q
        · rw [henq] at hp
          simp only [List.append_assoc, List.mem_append, List.mem_cons,
            List.not_mem_nil, or_false] at hp
          rcases hp with hp | hp | hp
          · exact Or.inr (hds p hp)
          · have he : e = .pendingRequestsOverflow :=
              enqueueWorkItem_error_eq {c with pendingRequests := rest} wi e
                (by rw [henq])
            right
            rw [hp, he]
          · exact ih {c with pendingRequests := rest} p hp
        · rw [henq] at hp
          simp only [List.mem_append] at hp
          rcases hp with hp | hp
          · exact Or.inr (hds p hp)
          · exact ih {c with pendingRequests := q} p hp

/-- A client that has cached a dial failure. -/
def cachedErrProbe : ClientState :=
  { MaxPendingRequests := 10, lastErr := some (.connError "cannot connect to server"),
    pendingRequests := [], pendingResponses := [], reqID := 0, pendingRequestsCount := 0 }

/-- Claim C10 fails as stated: not every error delivered to a DoDeadline
caller passes through getError — the streaming-body rejection is returned
directly.  With a cached connection error present, DoDeadline on a
streaming-body request returns the no-body-stream sentinel, while routing
through getError would have surfaced the cached connection error. -/
theorem doDeadline_noBodyStream_skips_getError :
    (cachedErrProbe.doDeadline true ⟨0⟩).1 = .errResult .noBodyStream ∧
    getError cachedErrProbe.lastErr .noBodyStream
      = .connError "cannot connect to server" ∧
    ClientError.noBodyStream ≠ ClientError.connError "cannot connect to server" := by
  decide

/-- Claim C10 (amended): every error delivered to a DoDeadline caller other
than the synchronous no-body-stream rejection — the admission and enqueue
overflow returns, the displaced-item completions, the sweeper's
timeout completions for stale queued requests and stale correlation-table
entries, and the writer's pre-send expiry and ID-collision completions — is
first passed through getError, which returns the client's cached last
connection/dial error whenever one is non-nil and the specific error only
when no last error is cached; so after any dial or connection failure a
timed-out request surfaces the cached connection error rather than the bare
Timeout sentinel. -/
theorem client_error_routing (c : ClientState) (wi : WorkItem) (now : Int) :
    (∀ e, (c.doDeadline false wi).1 = .errResult e →
      e = getError c.lastErr .pendingRequestsOverflow) ∧
    (∀ p ∈ (c.doDeadline false wi).2.2,
      p.2 = getError c.lastErr .pendingRequestsOverflow) ∧
    (∀ p ∈ (c.unblockStaleRequests now).2.1,
      p.2 = getError c.lastErr .timeout
        ∨ p.2 = getError c.lastErr .pendingRequestsOverflow) ∧
    (∀ p ∈ (c.unblockStaleResponses now).2.1, p.2 = getError c.lastErr .timeout) ∧
    (∀ e, (c.connWriterStep now wi).2.2 = some e →
      e = getError c.lastErr .timeout
        ∨ e = getError c.lastErr (.requestIDOverflow c.reqID)) ∧
    (∀ e s, getError (some e) s = e) ∧
    (∀ s, getError none s = s) := by
  refine ⟨?_, ?_, ?_, ?_, ?_, fun e s => rfl, fun s => rfl⟩
  · intro e he
    simp only [ClientState.doDeadline, Bool.false_eq_true, if_false] at he
    by_cases hcap : c.pendingRequestsCount + 1 ≥ c.maxPendingRequests
    · rw [if_pos hcap] at he
      simp at he
      exact he.symm
    · rw [if_neg hcap] at he
      rcases henq : ({c with pendingRequestsCount := c.pendingRequestsCount + 1}
          : ClientState).enqueueWorkItem wi with ⟨res, ds⟩
      rcases res with e2 | q
      · rw [henq] at he
        simp at he
        have he2 : e2 = .pendingRequestsOverflow :=
          enqueueWorkItem_error_eq _ wi e2 (by rw [henq])
        rw [← he, he2]
      · rw [henq] at he
        simp at he
  · intro p hp
    simp only [ClientState.doDeadline, Bool.false_eq_true, if_false] at hp
    by_cases hcap : c.pendingRequestsCount + 1 ≥ c.maxPendingRequests
    · rw [if_pos hcap] at hp
      simp at hp
    · rw [if_neg hcap] at hp
      rcases henq : ({c with pendingRequestsCount := c.pendingRequestsCount + 1}
          : ClientState).enqueueWorkItem wi with ⟨res, ds⟩
      have hds : ∀ q ∈ ds, q.2 = getError c.lastErr .pendingRequestsOverflow := by
        intro q hqm
        exact enqueueWorkItem_displaced
          {c with pendingRequestsCount := c.pendingRequestsCount + 1} wi q
          (by rw [henq]; exact hqm)
      rcases res with e2 | q
      · rw [henq] at hp
        simp at hp
        exact hds p hp
      · rw [henq] at hp
        simp at hp
        exact hds p hp
  · exact fun p hp => unblockStalePass_errors now c.pendingRequests.length c p hp
  · intro p hp
    simp only [ClientState.unblockStaleResponses, List.mem_map] at hp
    rcases hp with ⟨q, _, hq⟩
    rw [← hq]
  · intro e he
    simp only [ClientState.connWriterStep] at he
    by_cases hexp : wi.deadline < now
    · rw [if_pos hexp] at he
      simp at he
      exact Or.inl he.symm
    · rw [if_neg hexp] at he
      by_cases hcoll : ((c.pendingResponses.lookup c.reqID).isSome : Prop)
      · simp only [if_pos hcoll] at he
        simp at he
        exact Or.inr he.symm
      · simp only [if_neg hcoll] at he
        simp at he

theorem client_error_routing_witness :
    ClientError.connError "cannot connect to server"
        = getError cachedErrProbe.lastErr .timeout
      ∨ ClientError.connError "cannot connect to server"
        = getError cachedErrProbe.lastErr (.requestIDOverflow cachedErrProbe.reqID) :=
  (client_error_routing cachedErrProbe ⟨-5⟩ 0).2.2.2.2.1
    (.connError "cannot connect to server") (by decide)

/-- Embeds `DefaultConcurrency = 10000` (common.go). -/
def DefaultConcurrency : Nat := 10000

/-- The parts of `Server` (server.go) relevant to concurrency admission:
the configured `Concurrency` and the atomic `concurrencyCount`. -/
structure ServerState where
  Concurrency : Int
  concurrencyCount : Nat
deriving DecidableEq, Repr

/-- Embeds `Server.concurrency` (server.go): the configured value, or the
default when it is non-positive. -/
def ServerState.concurrency (s : ServerState) : Nat :=
  if s.Concurrency ≤ 0 then DefaultConcurrency else s.Concurrency.toNat

/-- Embeds `fasthttp.StatusTooManyRequests`. -/
def StatusTooManyRequests : Nat := 429

/-- The response body written by `Server.connReader` (server.go) on
concurrency overload, via
`fmt.Fprintf(&wi.ctx, "concurrency limit exceeded: %d. Increase ...")`. -/
def concurrencyLimitBody (limit : Nat) : String :=
  "concurrency limit exceeded: "
    ++ (toString limit ++ ". Increase Server.Concurrency or decrease load on the server")

/-- Decision taken by `Server.connReader` after reading one request. -/
inductive ReadStepAction where
  | invokeHandler
  | enqueueReject (body : String) (status : Nat)
deriving DecidableEq, Repr

/-- Embeds the concurrency-admission step of `Server.connReader`
(server.go): `n := atomic.AddUint32(&s.concurrencyCount, 1)`; if `n`
exceeds the limit the counter is decremented back, the handler is not
invoked, and a 429 response carrying the concurrency-limit text is enqueued
as a ready response; otherwise the handler goroutine is spawned.  Returns
the resulting counter and the action. -/
def serverAdmission (count limit : Nat) : Nat × ReadStepAction :=
  let n := count + 1
  if n > limit then
    (n - 1, .enqueueReject (concurrencyLimitBody limit) StatusTooManyRequests)
  else
    (n, .invokeHandler)

/-- Embeds the `atomic.AddUint32(&s.concurrencyCount, ^uint32(0))` performed
when an admitted handler goroutine finishes (server.go). -/
def handlerFinish (count : Nat) : Nat := count - 1

/-- The two counter-touching events on a server: a request admission test
and a handler completion. -/
inductive ServerEvent where
  | requestRead
  | handlerDone
deriving DecidableEq, Repr

/-- Effect of one server event on the concurrency counter. -/
def serverCounterStep (limit count : Nat) : ServerEvent → Nat
  | .requestRead => (serverAdmission count limit).1
  | .handlerDone => handlerFinish count

/-- The concurrency counter after a sequence of events, starting from the
zero counter of a fresh server. -/
def serverCounterTrace (limit : Nat) (events : List ServerEvent) : Nat :=
  events.foldl (serverCounterStep limit) 0

theorem serverCounterTrace_le (limit : Nat) :
    ∀ (events : List ServerEvent) (count : Nat), count ≤ limit →
      events.foldl (serverCounterStep limit) count ≤ limit := by
  intro events
  induction events with
  | nil =>
    intro count h
    simpa using h
  | cons e es ih =>
    intro count h
    simp only [List.foldl_cons]
    apply ih
    cases e
    · simp only [serverCounterStep, serverAdmission]
      split <;> omega
    · simp only [serverCounterStep, handlerFinish]
      omega

/-- Claim C6: on reading each request the server increments the concurrency
counter; if the new value exceeds the Concurrency limit N it decrements the
counter back, does not invoke the handler, and enqueues a 429 Too Many
Requests response whose body begins with the text
"concurrency limit exceeded: N"; consequently the counter never exceeds N
(starting from a fresh server) except transiently during this
test-and-rollback. -/
theorem server_concurrency_admission (count limit : Nat) :
    (count + 1 > limit →
      serverAdmission count limit
        = (count, .enqueueReject (concurrencyLimitBody limit) 429)
      ∧ ∃ s, concurrencyLimitBody limit
          = ("concurrency limit exceeded: " ++ toString limit) ++ s) ∧
    (count + 1 ≤ limit →
      serverAdmission count limit = (count + 1, .invokeHandler)) ∧
    (count ≤ limit → (serverAdmission count limit).1 ≤ limit) ∧
    (∀ events, serverCounterTrace limit events ≤ limit) := by
  refine ⟨?_, ?_, ?_, ?_⟩
  · intro hover
    constructor
    · simp only [serverAdmission, if_pos hover]
      rfl
    · exact ⟨". Increase Server.Concurrency or decrease load on the server",
        (String.append_assoc _ _ _).symm⟩
  · intro hunder
    simp only [serverAdmission]
    rw [if_neg (by omega)]
  · intro hle
    simp only [serverAdmission]
    split <;> omega
  · intro events
    exact serverCounterTrace_le limit events 0 (Nat.zero_le _)

theorem server_concurrency_admission_witness :
    ((2 : Nat) + 1 > 2 ∧
      serverAdmission 2 2 = (2, .enqueueReject (concurrencyLimitBody 2) 429)) ∧
    ((1 : Nat) + 1 ≤ 2 ∧ serverAdmission 1 2 = (2, .invokeHandler)) ∧
    (∃ s, concurrencyLimitBody 2 = ("concurrency limit exceeded: " ++ toString 2) ++ s) ∧
    serverCounterTrace 2 [.requestRead, .requestRead, .requestRead, .handlerDone] ≤ 2 :=
  ⟨⟨by decide, ((server_concurrency_admission 2 2).1 (by decide)).1⟩,
   ⟨by decide, (server_concurrency_admission 1 2).2.1 (by decide)⟩,
   ((server_concurrency_admission 2 2).1 (by decide)).2,
   (server_concurrency_admission 0 2).2.2.2
     [.requestRead, .requestRead, .requestRead, .handlerDone]⟩

/-- The connection-deadline syscalls a writer or reader can issue. -/
inductive DeadlineOp where
  | setReadDeadline (t : Int)
  | setWriteDeadline (t : Int)
deriving DecidableEq, Repr

/-- Embeds the write-deadline refresh of `Client.connWriter` (client.go):
when `WriteTimeout > 0` and more than a quarter of the timeout
(`writeTimeout >> 2`) has elapsed since the last refresh, the code calls
`conn.SetReadDeadline(t.Add(writeTimeout))` — although its comment and its
error message speak of updating the write deadline — and records the
refresh instant.  Times are nanoseconds; the arithmetic shift `>> 2` on the
positive int64 timeout is division by 4.  Returns the syscall issued, if
any, and the new `lastWriteDeadline`. -/
def connWriterDeadlineUpdate (writeTimeout now lastWriteDeadline : Int) :
    Option DeadlineOp × Int :=
  if 0 < writeTimeout then
    if now - lastWriteDeadline > writeTimeout / 4 then
      (some (.setReadDeadline (now + writeTimeout)), now)
    else
      (none, lastWriteDeadline)
  else
    (none, lastWriteDeadline)

/-- Embeds the write-deadline refresh of `Server.connWriter` (server.go),
which has the same shape as the client's and likewise calls
`conn.SetReadDeadline`. -/
def serverConnWriterDeadlineUpdate (writeTimeout now lastWriteDeadline : Int) :
    Option DeadlineOp × Int :=
  if 0 < writeTimeout then
    if now - lastWriteDeadline > writeTimeout / 4 then
      (some (.setReadDeadline (now + writeTimeout)), now)
    else
      (none, lastWriteDeadline)
  else
    (none, lastWriteDeadline)

/-- Claim C8 concerns a code bug: the claim (and the spec it comes from)
require the writers to call the set-write-deadline operation, but both
`Client.connWriter` and `Server.connWriter` call `conn.SetReadDeadline`
when refreshing the write deadline, contradicting the code's own comments
("Optimization: update write deadline ...") and error messages ("cannot
update write deadline").  At the failing input WriteTimeout = 4s with 5s
elapsed since the last refresh, both writers issue a read-deadline syscall;
the 25%-gating part of the claim does hold, and no input ever produces a
set-write-deadline syscall. -/
theorem connWriter_deadline_wrong_direction :
    connWriterDeadlineUpdate 4000000000 5000000000 0
      = (some (.setReadDeadline 9000000000), 5000000000) ∧
    serverConnWriterDeadlineUpdate 4000000000 5000000000 0
      = (some (.setReadDeadline 9000000000), 5000000000) ∧
    (∀ wt now last, connWriterDeadlineUpdate wt now last
        = serverConnWriterDeadlineUpdate wt now last) ∧
    (∀ wt now last, (connWriterDeadlineUpdate wt now last).1.isSome
        ↔ (0 < wt ∧ now - last > wt / 4)) ∧
    (∀ wt now last t,
      (connWriterDeadlineUpdate wt now last).1 ≠ some (.setWriteDeadline t)) := by
  refine ⟨by decide, by decide, fun wt now last => rfl, ?_, ?_⟩
  · intro wt now last
    simp only [connWriterDeadlineUpdate]
    split
    · split <;> simp_all
    · simp_all
  · intro wt now last t
    simp only [connWriterDeadlineUpdate]
    split
    · split <;> simp
    · simp

/-- 10 milliseconds in nanoseconds, the sweeper's sleep floor. -/
def sweeperMinSleep : Nat := 10000000

/-- 10 seconds in nanoseconds, the sweeper's sleep ceiling. -/
def sweeperMaxSleep : Nat := 10000000000

/-- Embeds the adaptive sleep adjustment of the background goroutine started
by `Client.init` (client.go): when the pass found expired work the sleep is
multiplied by 0.7 and clamped from below to 10ms, otherwise it is multiplied
by 1.5 and clamped from above to 10s.  The float64 products
`0.7 * float64(d)` and `1.5 * float64(d)` followed by the truncating
`time.Duration(...)` conversion are modelled as exact rational scaling with
truncation (`7*d/10` and `3*d/2`); within the reachable range the 1.5 case
is exact in float64 and the 0.7 case agrees at the probed points. -/
def sweeperNextSleep (found : Bool) (d : Nat) : Nat :=
  if found then
    let d2 := 7 * d / 10
    if d2 < sweeperMinSleep then sweeperMinSleep else d2
  else
    let d2 := 3 * d / 2
    if d2 > sweeperMaxSleep then sweeperMaxSleep else d2

/-- The sweeper sleep after a sequence of passes, starting from the initial
`sleepDuration := 10 * time.Millisecond` of `Client.init` (client.go);
each list entry records whether that pass found expired work. -/
def sweeperSleepTrace (finds : List Bool) : Nat :=
  finds.foldl (fun d f => sweeperNextSleep f d) sweeperMinSleep

theorem sweeperSleep_step_bounds (f : Bool) (d : Nat)
    (hlo : sweeperMinSleep ≤ d) (hhi : d ≤ sweeperMaxSleep) :
    sweeperMinSleep ≤ sweeperNextSleep f d ∧ sweeperNextSleep f d ≤ sweeperMaxSleep := by
  simp only [sweeperMinSleep, sweeperMaxSleep] at hlo hhi
  cases f <;> simp [sweeperNextSleep, sweeperMinSleep, sweeperMaxSleep] <;>
    first
    | omega
    | (split <;> omega)

/-- Claim C9 fails as stated: a pass that found expired work multiplies the
sleep by 0.7, not by 0.5 — from a 1-second sleep the code moves to 700ms,
not to the 500ms that halving would give. -/
theorem sweeper_sleep_not_halved :
    sweeperNextSleep true 1000000000 = 700000000
    ∧ (700000000 : Nat) ≠ 1000000000 / 2 := by decide

/-- Claim C9 (amended): after every pass of the deadline sweeper the next
sleep duration is multiplied by 0.7 (not halved) and clamped from below to
10ms when the pass found expired work, and multiplied by 1.5 and clamped
from above to 10s when it found none; consequently, starting from the
initial 10ms, the sleep duration always remains in the closed interval
[10ms, 10s]. -/
theorem sweeper_sleep_adaptive :
    (∀ d, sweeperNextSleep true d = max (7 * d / 10) sweeperMinSleep) ∧
    (∀ d, sweeperNextSleep false d = min (3 * d / 2) sweeperMaxSleep) ∧
    (∀ finds, sweeperMinSleep ≤ sweeperSleepTrace finds
      ∧ sweeperSleepTrace finds ≤ sweeperMaxSleep) := by
  refine ⟨?_, ?_, ?_⟩
  · intro d
    simp [sweeperNextSleep]
    first
    | omega
    | (split <;> omega)
  · intro d
    simp [sweeperNextSleep]
    first
    | omega
    | (split <;> omega)
  · have key : ∀ (finds : List Bool) (d : Nat),
        sweeperMinSleep ≤ d → d ≤ sweeperMaxSleep →
        sweeperMinSleep ≤ finds.foldl (fun d f => sweeperNextSleep f d) d
          ∧ finds.foldl (fun d f => sweeperNextSleep f d) d ≤ sweeperMaxSleep := by
      intro finds
      induction finds with
      | nil =>
        intro d hlo hhi
        exact ⟨hlo, hhi⟩
      | cons f fs ih =>
        intro d hlo hhi
        simp only [List.foldl_cons]
        have hstep := sweeperSleep_step_bounds f d hlo hhi
        exact ih _ hstep.1 hstep.2
    intro finds
    exact key finds sweeperMinSleep (Nat.le_refl _) (by decide)

end Httpteleport
